import Mathlib

/-!
Verification of the LyCORIS preset/override configuration subsystem
(`lycoris/config_sdk.py`, `lycoris/config.py`, `lycoris/utils/preset.py`).

The Python runtime values that flow through this subsystem (None, booleans,
ints, strings, lists, and string-keyed dicts) are modelled by the inductive
type `Value`; Python dicts are association lists in insertion order, and
raising an exception is modelled by `Except PyError`.  Mutable-object
aliasing, which only matters for the builtin preset catalog, is modelled
separately with an explicit heap (`Heap`) of `PresetConfig` objects.
-/

/-- A Python runtime value as used by the config subsystem: `None`, bools,
ints, strings, lists, and string-keyed dicts (insertion-ordered). -/
inductive Value where
  | none : Value
  | bool : Bool → Value
  | int : Int → Value
  | str : String → Value
  | list : List Value → Value
  | dict : List (String × Value) → Value

mutual

/-- Structural boolean equality on `Value`. -/
def Value.beq : Value → Value → Bool
  | Value.none, Value.none => true
  | Value.bool a, Value.bool b => a == b
  | Value.int a, Value.int b => a == b
  | Value.str a, Value.str b => a == b
  | Value.list a, Value.list b => Value.beqList a b
  | Value.dict a, Value.dict b => Value.beqDict a b
  | _, _ => false

/-- Structural boolean equality on lists of `Value`. -/
def Value.beqList : List Value → List Value → Bool
  | [], [] => true
  | x :: xs, y :: ys => Value.beq x y && Value.beqList xs ys
  | _, _ => false

/-- Structural boolean equality on string-keyed pair lists of `Value`. -/
def Value.beqDict : List (String × Value) → List (String × Value) → Bool
  | [], [] => true
  | (k, x) :: xs, (l, y) :: ys => k == l && Value.beq x y && Value.beqDict xs ys
  | _, _ => false

end

mutual

/-- `Value.beq` decides propositional equality. -/
theorem Value.beq_iff : ∀ a b : Value, Value.beq a b = true ↔ a = b
  | Value.none, Value.none => by simp [Value.beq]
  | Value.bool _, Value.bool _ => by simp [Value.beq]
  | Value.int _, Value.int _ => by simp [Value.beq]
  | Value.str _, Value.str _ => by simp [Value.beq]
  | Value.list a, Value.list b => by
      simp only [Value.beq, Value.list.injEq]
      exact Value.beqList_iff a b
  | Value.dict a, Value.dict b => by
      simp only [Value.beq, Value.dict.injEq]
      exact Value.beqDict_iff a b
  | Value.none, Value.bool _ => by simp [Value.beq]
  | Value.none, Value.int _ => by simp [Value.beq]
  | Value.none, Value.str _ => by simp [Value.beq]
  | Value.none, Value.list _ => by simp [Value.beq]
  | Value.none, Value.dict _ => by simp [Value.beq]
  | Value.bool _, Value.none => by simp [Value.beq]
  | Value.bool _, Value.int _ => by simp [Value.beq]
  | Value.bool _, Value.str _ => by simp [Value.beq]
  | Value.bool _, Value.list _ => by simp [Value.beq]
  | Value.bool _, Value.dict _ => by simp [Value.beq]
  | Value.int _, Value.none => by simp [Value.beq]
  | Value.int _, Value.bool _ => by simp [Value.beq]
  | Value.int _, Value.str _ => by simp [Value.beq]
  | Value.int _, Value.list _ => by simp [Value.beq]
  | Value.int _, Value.dict _ => by simp [Value.beq]
  | Value.str _, Value.none => by simp [Value.beq]
  | Value.str _, Value.bool _ => by simp [Value.beq]
  | Value.str _, Value.int _ => by simp [Value.beq]
  | Value.str _, Value.list _ => by simp [Value.beq]
  | Value.str _, Value.dict _ => by simp [Value.beq]
  | Value.list _, Value.none => by simp [Value.beq]
  | Value.list _, Value.bool _ => by simp [Value.beq]
  | Value.list _, Value.int _ => by simp [Value.beq]
  | Value.list _, Value.str _ => by simp [Value.beq]
  | Value.list _, Value.dict _ => by simp [Value.beq]
  | Value.dict _, Value.none => by simp [Value.beq]
  | Value.dict _, Value.bool _ => by simp [Value.beq]
  | Value.dict _, Value.int _ => by simp [Value.beq]
  | Value.dict _, Value.str _ => by simp [Value.beq]
  | Value.dict _, Value.list _ => by simp [Value.beq]

/-- `Value.beqList` decides propositional equality. -/
theorem Value.beqList_iff : ∀ a b : List Value, Value.beqList a b = true ↔ a = b
  | [], [] => by simp [Value.beqList]
  | x :: xs, y :: ys => by
      simp only [Value.beqList, Bool.and_eq_true, List.cons.injEq]
      exact and_congr (Value.beq_iff x y) (Value.beqList_iff xs ys)
  | [], _ :: _ => by simp [Value.beqList]
  | _ :: _, [] => by simp [Value.beqList]

/-- `Value.beqDict` decides propositional equality. -/
theorem Value.beqDict_iff : ∀ a b : List (String × Value), Value.beqDict a b = true ↔ a = b
  | [], [] => by simp [Value.beqDict]
  | (k, x) :: xs, (l, y) :: ys => by
      simp only [Value.beqDict, Bool.and_eq_true, List.cons.injEq, Prod.mk.injEq]
      rw [Value.beq_iff x y, Value.beqDict_iff xs ys, beq_iff_eq, and_assoc]
  | [], _ :: _ => by simp [Value.beqDict]
  | _ :: _, [] => by simp [Value.beqDict]

end

instance : DecidableEq Value := fun a b =>
  decidable_of_iff (Value.beq a b = true) (Value.beq_iff a b)

/-- A Python dict of `Value`s: an association list in insertion order. -/
abbrev PyDict := List (String × Value)

/-- Python truthiness: `None`, `False`, `0`, the empty string, the empty
list and the empty dict are falsy; everything else is truthy. -/
def truthy : Value → Bool
  | Value.none => false
  | Value.bool b => b
  | Value.int n => !(n == 0)
  | Value.str s => !(s == "")
  | Value.list l => !l.isEmpty
  | Value.dict d => !d.isEmpty

/-- Python `d.get(k)` / `d[k]` on an insertion-ordered dict: the value of
the first entry whose key is `k` (dicts built by Python have unique keys). -/
def dictGet {β : Type} (d : List (String × β)) (k : String) : Option β :=
  match d with
  | [] => Option.none
  | q :: rest => if q.1 = k then Option.some q.2 else dictGet rest k

/-- The keys of a dict, in insertion order (Python `d.keys()`). -/
def dictKeys {β : Type} (d : List (String × β)) : List String :=
  d.map (fun q => q.1)

/-- Python `d[k] = v`: replace the value in place if `k` is present,
otherwise append the new entry at the end. -/
def dset {β : Type} (d : List (String × β)) (k : String) (v : β) : List (String × β) :=
  match d with
  | [] => [(k, v)]
  | q :: rest => if q.1 = k then (k, v) :: rest else q :: dset rest k v

/-- Python `d.update(e)`: assign every entry of `e` into `d` in order. -/
def dupdate (d e : PyDict) : PyDict :=
  e.foldl (fun acc q => dset acc q.1 q.2) d

/-- Python `", ".join(l)`. -/
def commaJoin : List String → String
  | [] => ""
  | [x] => x
  | x :: rest => x ++ ", " ++ commaJoin rest

/-- Insert a string into an already-sorted list, keeping it sorted. -/
def insortStr (x : String) : List String → List String
  | [] => [x]
  | y :: ys => if x ≤ y then x :: y :: ys else y :: insortStr x ys

/-- Python `sorted` on a list of strings (insertion sort; Python compares
strings lexicographically, as Lean's `String` order does for ASCII). -/
def sortStrs (l : List String) : List String := l.foldr insortStr []

/-- Python `s.lower()`, modelled per character; the algorithm names in the
registry are ASCII, where `Char.toLower` agrees with Python. -/
def pyLower (s : String) : String := ⟨s.data.map Char.toLower⟩

/-- The exceptions the subsystem can raise.  `PresetValidationError` is the
class defined in `config_sdk.py`; `attributeError` models Python's
`AttributeError` (e.g. calling `.items()` or `.lower()` on a value that
lacks it) and `typeError` models `TypeError` (e.g. `dict(x)` on a
non-mapping); those two are not subclasses of `PresetValidationError`. -/
inductive PyError where
  | presetValidationError : String → PyError
  | attributeError : PyError
  | typeError : PyError
  deriving DecidableEq

/-- Metadata that describes which arguments an algorithm understands
(dataclass `AlgoSpec`, frozen). -/
structure AlgoSpec where
  name : String
  description : String
  supported_args : List String := []
  required_args : List String := []
  notes : Option String := Option.none
  deriving DecidableEq

/-- `AlgoSpec.supports`: membership of `arg` in `supported_args`. -/
def AlgoSpec.supports (spec : AlgoSpec) (arg : String) : Bool :=
  spec.supported_args.contains arg

/-- The static algorithm registry `ALGO_REGISTRY` of `config_sdk.py`,
keyed by lowercase algorithm name, in source order.  The `description`
and `notes` strings are kept verbatim. -/
def ALGO_REGISTRY : List (String × AlgoSpec) :=
  [ ("lora",
     { name := "lora"
       description := "Standard LoRA / LoCon adapter."
       supported_args := ["dim", "alpha", "dropout", "rank_dropout", "module_dropout",
         "use_tucker", "use_scalar", "weight_decompose", "wd_on_output", "bypass_mode"] }),
    ("locon",
     { name := "locon"
       description := "Alias of lora that enables convolution layers by default."
       supported_args := ["dim", "alpha", "dropout", "rank_dropout", "module_dropout",
         "use_tucker", "use_scalar", "weight_decompose", "wd_on_output", "bypass_mode"] }),
    ("loha",
     { name := "loha"
       description := "LoHa adapter that factorizes with Hadamard products."
       supported_args := ["dim", "alpha", "dropout", "rank_dropout", "module_dropout",
         "use_tucker", "use_scalar", "weight_decompose", "wd_on_output"]
       notes := Option.some "High dimensions may require lower learning rates to remain stable." }),
    ("lokr",
     { name := "lokr"
       description := "Kronecker-product based adapter (LoKr)."
       supported_args := ["dim", "alpha", "factor", "dropout", "rank_dropout",
         "module_dropout", "use_scalar", "full_matrix", "weight_decompose", "wd_on_output",
         "unbalanced_factorization"]
       notes := Option.some "Setting dim to a very large value triggers the full-matrix path." }),
    ("dylora",
     { name := "dylora"
       description := "Dynamic LoRA that incrementally updates rank blocks."
       supported_args := ["dim", "alpha", "block_size", "dropout", "rank_dropout",
         "module_dropout"] }),
    ("glora",
     { name := "glora"
       description := "Generalized LoRA adapter."
       supported_args := ["dim", "alpha", "dropout", "rank_dropout", "module_dropout"] }),
    ("full",
     { name := "full"
       description := "Native fine-tuning (full weight matrices)."
       supported_args := ["dim", "alpha", "dropout", "rank_dropout", "module_dropout"]
       notes := Option.some "Used for dreambooth-like full matrix training." }),
    ("diag-oft",
     { name := "diag-oft"
       description := "Diagonal Orthogonal Finetuning."
       supported_args := ["dim", "constraint", "rescaled"] }),
    ("boft",
     { name := "boft"
       description := "Butterfly Orthogonal Finetuning."
       supported_args := ["dim", "constraint", "rescaled"] }),
    ("ia3",
     { name := "ia3"
       description := "Input-output scaling adapter (IA^3)."
       supported_args := []
       notes := Option.some "Most training setups use preset ia3 with dedicated module selection." }) ]

/-- Per-module override describing which algorithm and kwargs to use
(dataclass `AlgoOverride`).  `algo` holds the raw popped value
(`Value.none` both when the key was absent and when it was `None`,
exactly as `data.pop("algo", None)` behaves). -/
structure AlgoOverride where
  algo : Value := Value.none
  options : PyDict := []
  deriving DecidableEq

/-- `AlgoOverride.from_mapping`: copy the mapping, pop the reserved key
`"algo"` (absent means `None`), and keep every remaining entry verbatim
as an option. -/
def AlgoOverride.from_mapping (mapping : PyDict) : AlgoOverride :=
  { algo := (dictGet mapping "algo").getD Value.none
    options := mapping.filter (fun q => q.1 ≠ "algo") }

/-- `AlgoOverride.to_dict`: a copy of the options, with `"algo"`
re-assigned into the result when it is not `None`.  `copy.deepcopy` on
immutably-modelled values is the identity. -/
def AlgoOverride.to_dict (o : AlgoOverride) : PyDict :=
  if o.algo = Value.none then o.options else dset o.options "algo" o.algo

/-- `AlgoOverride.validate`: a no-op when `algo` is `None`; otherwise
lowercase the name (Python `.lower()`, an `AttributeError` when `algo` is
not a string), fail when it is not a registry key, and fail on the first
option key that is not a supported argument.  The messages drop Python's
quote characters and tuple formatting but keep the wording. -/
def AlgoOverride.validate (o : AlgoOverride) : Except PyError Unit :=
  match o.algo with
  | Value.none => Except.ok ()
  | Value.str s =>
    let algo_name := pyLower s
    match dictGet ALGO_REGISTRY algo_name with
    | Option.none =>
      Except.error (PyError.presetValidationError ("Unknown algorithm " ++ s ++ "."))
    | Option.some spec =>
      match o.options.find? (fun q => !(spec.supported_args.contains q.1)) with
      | Option.some q =>
        Except.error (PyError.presetValidationError
          ("Unsupported option " ++ q.1 ++ " for algo " ++ s ++ ". Supported options: "
            ++ commaJoin spec.supported_args))
      | Option.none => Except.ok ()
  | _ => Except.error PyError.attributeError

/-- The closed schema `VALID_PRESET_KEYS` of `config_sdk.py`, in source
order. -/
def VALID_PRESET_KEYS : List String :=
  ["enable_conv", "target_module", "target_name", "module_algo_map", "name_algo_map",
   "lora_prefix", "use_fnmatch", "unet_target_module", "unet_target_name",
   "text_encoder_target_module", "text_encoder_target_name", "exclude_name"]

/-- `_copy_value`: `None` stays `None`, everything else is deep-copied;
a deep copy of an immutably-modelled value is the value itself. -/
def _copy_value (v : Value) : Value := v

/-- The dataclass `PresetConfig`.  Scalar/list fields hold the raw value
(`Value.none` meaning unset, the dataclass default); the two algorithm
maps hold parsed overrides. -/
structure PresetConfig where
  enable_conv : Value := Value.none
  target_module : Value := Value.none
  target_name : Value := Value.none
  module_algo_map : List (String × AlgoOverride) := []
  name_algo_map : List (String × AlgoOverride) := []
  lora_prefix : Value := Value.none
  use_fnmatch : Value := Value.none
  unet_target_module : Value := Value.none
  unet_target_name : Value := Value.none
  text_encoder_target_module : Value := Value.none
  text_encoder_target_name : Value := Value.none
  exclude_name : Value := Value.none
  extra : PyDict := []
  deriving DecidableEq

/-- Ingestion of one scalar/list field inside `from_dict`:
`kwargs[key] = _copy_value(data.get(key))` when the key is present, the
dataclass default `None` when it is absent — both yield `Value.none`
when the stored value is `None`. -/
def getField (data : PyDict) (key : String) : Value :=
  match dictGet data key with
  | Option.some v => _copy_value v
  | Option.none => Value.none

/-- One entry of a raw algorithm map: `AlgoOverride.from_mapping(value or
{})`.  A falsy value (None, `{}`, ...) is replaced by the empty mapping;
`dict()` of a truthy non-dict raises `TypeError`. -/
def parseOverride (v : Value) : Except PyError AlgoOverride :=
  if truthy v then
    match v with
    | Value.dict d => Except.ok (AlgoOverride.from_mapping d)
    | _ => Except.error PyError.typeError
  else Except.ok (AlgoOverride.from_mapping [])

/-- The entry loop of `from_dict` over one raw algorithm map: build each
override in insertion order, validating it right away in strict mode. -/
def parseEntries (entries : PyDict) (strict : Bool) :
    Except PyError (List (String × AlgoOverride)) :=
  match entries with
  | [] => Except.ok []
  | (k, v) :: rest =>
    match parseOverride v with
    | Except.error e => Except.error e
    | Except.ok o =>
      match (if strict then AlgoOverride.validate o else Except.ok ()) with
      | Except.error e => Except.error e
      | Except.ok _ =>
        match parseEntries rest strict with
        | Except.error e => Except.error e
        | Except.ok os => Except.ok ((k, o) :: os)

/-- Processing of one algorithm-map key inside `from_dict`:
`raw_map = data.get(key) or {}` (so a falsy value means the empty map),
then `.items()` iteration — an `AttributeError` when the truthy value is
not a dict. -/
def parseAlgoMap (data : PyDict) (key : String) (strict : Bool) :
    Except PyError (List (String × AlgoOverride)) :=
  let rawv := (dictGet data key).getD Value.none
  if truthy rawv then
    match rawv with
    | Value.dict entries => parseEntries entries strict
    | _ => Except.error PyError.attributeError
  else parseEntries [] strict

/-- The message of the unknown-key error raised by `from_dict`:
the offending keys, sorted, then the list of valid keys. -/
def unknownKeysMsg (unknown_keys : List String) : String :=
  "Unknown preset keys: " ++ commaJoin (sortStrs unknown_keys) ++ ". Valid keys: "
    ++ commaJoin VALID_PRESET_KEYS

/-- `PresetConfig.from_dict`: reject (all) unknown top-level keys first,
then ingest each recognized key in schema order — the two algorithm maps
through `parseAlgoMap`, everything else through `getField` — and build
the dataclass; `extra` is always left empty. -/
def PresetConfig.from_dict (data : PyDict) (strict : Bool) : Except PyError PresetConfig :=
  let unknown_keys := (dictKeys data).filter (fun k => !(VALID_PRESET_KEYS.contains k))
  if unknown_keys ≠ [] then
    Except.error (PyError.presetValidationError (unknownKeysMsg unknown_keys))
  else
    match parseAlgoMap data "module_algo_map" strict with
    | Except.error e => Except.error e
    | Except.ok module_map =>
      match parseAlgoMap data "name_algo_map" strict with
      | Except.error e => Except.error e
      | Except.ok name_map =>
        Except.ok
          { enable_conv := getField data "enable_conv"
            target_module := getField data "target_module"
            target_name := getField data "target_name"
            module_algo_map := module_map
            name_algo_map := name_map
            lora_prefix := getField data "lora_prefix"
            use_fnmatch := getField data "use_fnmatch"
            unet_target_module := getField data "unet_target_module"
            unet_target_name := getField data "unet_target_name"
            text_encoder_target_module := getField data "text_encoder_target_module"
            text_encoder_target_name := getField data "text_encoder_target_name"
            exclude_name := getField data "exclude_name"
            extra := [] }

/-- `maybe_set` inside `to_dict`: skip `None`, otherwise emit the
(deep-copied) value under the key.  Successive `data[key] = ...`
assignments with pairwise-distinct fresh keys append in order, so each
one contributes a fragment that is concatenated. -/
def maybeSet (key : String) (value : Value) : PyDict :=
  if value = Value.none then [] else [(key, _copy_value value)]

/-- The algorithm-map fragment of `to_dict`: emitted only when the map is
non-empty, with every override exported through `AlgoOverride.to_dict`. -/
def mapSet (key : String) (m : List (String × AlgoOverride)) : PyDict :=
  if m = [] then []
  else [(key, Value.dict (m.map (fun q => (q.1, Value.dict (AlgoOverride.to_dict q.2)))))]

/-- `PresetConfig.to_dict`: emit the fields in source order (skipping
`None` scalars and empty maps), then `data.update(self.extra)`. -/
def PresetConfig.to_dict (p : PresetConfig) : PyDict :=
  dupdate
    (maybeSet "enable_conv" p.enable_conv
      ++ maybeSet "target_module" p.target_module
      ++ maybeSet "target_name" p.target_name
      ++ mapSet "module_algo_map" p.module_algo_map
      ++ mapSet "name_algo_map" p.name_algo_map
      ++ maybeSet "lora_prefix" ( PresetConfig.lora_prefix p)
      ++ maybeSet "use_fnmatch" p.use_fnmatch
      ++ maybeSet "unet_target_module" p.unet_target_module
      ++ maybeSet "unet_target_name" p.unet_target_name
      ++ maybeSet "text_encoder_target_module" p.text_encoder_target_module
      ++ maybeSet "text_encoder_target_name" p.text_encoder_target_name
      ++ maybeSet "exclude_name" p.exclude_name)
    p.extra

/-- `PresetConfig.list_algorithms`: yield the `algo` value of every
override whose `algo` is truthy (Python `if override.algo:`), module map
first, then name map, in insertion order, without deduplication. -/
def PresetConfig.list_algorithms (p : PresetConfig) : List Value :=
  (p.module_algo_map.filter (fun q => truthy q.2.algo)).map (fun q => q.2.algo)
    ++ (p.name_algo_map.filter (fun q => truthy q.2.algo)).map (fun q => q.2.algo)

/-- `describe_algo`: case-insensitive registry lookup, failing with a
`PresetValidationError` naming the unknown algorithm. -/
def describe_algo (name : String) : Except PyError AlgoSpec :=
  let algo_name := pyLower name
  match dictGet ALGO_REGISTRY algo_name with
  | Option.none =>
    Except.error (PyError.presetValidationError ("Unknown algorithm " ++ name ++ "."))
  | Option.some spec => Except.ok spec

/-- Module-level `list_algorithms`: the registry values in order. -/
def list_algorithms : List AlgoSpec :=
  ALGO_REGISTRY.map (fun q => q.2)

/-- Build a Python list of strings. -/
def vstrs (l : List String) : Value := Value.list (l.map Value.str)

/-- `FULL_UNET_MODULES` of `config.py`. -/
def FULL_UNET_MODULES : List String :=
  ["Transformer2DModel", "ResnetBlock2D", "Downsample2D", "Upsample2D", "HunYuanDiTBlock",
   "DoubleStreamBlock", "SingleStreamBlock", "SingleDiTBlock", "MMDoubleStreamBlock",
   "MMSingleStreamBlock", "WanAttentionBlock", "HunyuanVideoTransformerBlock",
   "HunyuanVideoSingleTransformerBlock", "JointTransformerBlock", "FinalLayer",
   "QwenImageTransformerBlock"]

/-- `FULL_UNET_NAMES` of `config.py`. -/
def FULL_UNET_NAMES : List String :=
  ["conv_in", "conv_out", "time_embedding.linear_1", "time_embedding.linear_2"]

/-- `FULL_TEXT_ENCODER_MODULES` of `config.py`. -/
def FULL_TEXT_ENCODER_MODULES : List String :=
  ["CLIPAttention", "CLIPSdpaAttention", "CLIPMLP", "MT5Block", "BertLayer",
   "Gemma2Attention", "Gemma2FlashAttention2", "Gemma2SdpaAttention", "Gemma2MLP"]

/-- The `"full"` builtin preset. -/
def preset_full : PresetConfig :=
  { enable_conv := Value.bool true
    unet_target_module := vstrs FULL_UNET_MODULES
    unet_target_name := vstrs FULL_UNET_NAMES
    text_encoder_target_module := vstrs FULL_TEXT_ENCODER_MODULES
    text_encoder_target_name := Value.list [] }

/-- The `"full-lin"` builtin preset. -/
def preset_full_lin : PresetConfig :=
  { enable_conv := Value.bool false
    unet_target_module := vstrs
      ["Transformer2DModel", "ResnetBlock2D", "HunYuanDiTBlock", "DoubleStreamBlock",
       "SingleStreamBlock", "SingleDiTBlock", "MMDoubleStreamBlock", "MMSingleStreamBlock",
       "WanAttentionBlock", "HunyuanVideoTransformerBlock",
       "HunyuanVideoSingleTransformerBlock", "JointTransformerBlock", "FinalLayer",
       "QwenImageTransformerBlock"]
    unet_target_name := vstrs ["time_embedding.linear_1", "time_embedding.linear_2"]
    text_encoder_target_module := vstrs FULL_TEXT_ENCODER_MODULES
    text_encoder_target_name := Value.list [] }

/-- The `"attn-mlp"` builtin preset. -/
def preset_attn_mlp : PresetConfig :=
  { enable_conv := Value.bool false
    unet_target_module := vstrs
      ["Transformer2DModel", "HunYuanDiTBlock", "DoubleStreamBlock", "SingleStreamBlock",
       "SingleDiTBlock", "MMDoubleStreamBlock", "MMSingleStreamBlock", "WanAttentionBlock",
       "HunyuanVideoTransformerBlock", "HunyuanVideoSingleTransformerBlock",
       "JointTransformerBlock", "FinalLayer", "QwenImageTransformerBlock"]
    unet_target_name := Value.list []
    text_encoder_target_module := vstrs FULL_TEXT_ENCODER_MODULES
    text_encoder_target_name := Value.list [] }

/-- The `"attn-only"` builtin preset. -/
def preset_attn_only : PresetConfig :=
  { enable_conv := Value.bool false
    unet_target_module := vstrs ["CrossAttention", "SelfAttention"]
    unet_target_name := Value.list []
    text_encoder_target_module := vstrs
      ["CLIPAttention", "CLIPSdpaAttention", "BertAttention", "MT5LayerSelfAttention",
       "Gemma2Attention", "Gemma2FlashAttention2", "Gemma2SdpaAttention"]
    text_encoder_target_name := Value.list [] }

/-- The `"unet-only"` builtin preset. -/
def preset_unet_only : PresetConfig :=
  { enable_conv := Value.bool true
    unet_target_module := vstrs FULL_UNET_MODULES
    unet_target_name := vstrs FULL_UNET_NAMES
    text_encoder_target_module := Value.list []
    text_encoder_target_name := Value.list [] }

/-- The `"unet-transformer-only"` builtin preset. -/
def preset_unet_transformer_only : PresetConfig :=
  { enable_conv := Value.bool false
    unet_target_module := vstrs
      ["Transformer2DModel", "HunYuanDiTBlock", "DoubleStreamBlock", "SingleStreamBlock",
       "SingleDiTBlock", "MMDoubleStreamBlock", "MMSingleStreamBlock", "WanAttentionBlock",
       "HunyuanVideoTransformerBlock", "HunyuanVideoSingleTransformerBlock",
       "JointTransformerBlock", "FinalLayer", "QwenImageTransformerBlock"]
    unet_target_name := Value.list []
    text_encoder_target_module := Value.list []
    text_encoder_target_name := Value.list [] }

/-- The `"unet-convblock-only"` builtin preset. -/
def preset_unet_convblock_only : PresetConfig :=
  { enable_conv := Value.bool true
    unet_target_module := vstrs ["ResnetBlock2D", "Downsample2D", "Upsample2D"]
    unet_target_name := vstrs ["conv_in", "conv_out"]
    text_encoder_target_module := Value.list []
    text_encoder_target_name := Value.list [] }

/-- The `"ia3"` builtin preset.  Note that its two `name_algo_map`
overrides are built as `AlgoOverride(options={"train_on_input": True})`:
their `algo` field is left at the dataclass default `None`. -/
def preset_ia3 : PresetConfig :=
  { enable_conv := Value.bool false
    unet_target_module := Value.list []
    unet_target_name := vstrs ["to_k", "to_v", "ff.net.2"]
    text_encoder_target_module := Value.list []
    text_encoder_target_name := vstrs ["k_proj", "v_proj", "mlp.fc2"]
    name_algo_map :=
      [("mlp.fc2", { options := [("train_on_input", Value.bool true)] }),
       ("ff.net.2", { options := [("train_on_input", Value.bool true)] })] }

/-- `BUILTIN_PRESET_CONFIGS` of `config.py`, in source order. -/
def BUILTIN_PRESET_CONFIGS : List (String × PresetConfig) :=
  [("full", preset_full),
   ("full-lin", preset_full_lin),
   ("attn-mlp", preset_attn_mlp),
   ("attn-only", preset_attn_only),
   ("unet-only", preset_unet_only),
   ("unet-transformer-only", preset_unet_transformer_only),
   ("unet-convblock-only", preset_unet_convblock_only),
   ("ia3", preset_ia3)]

/-- `PRESET` of `config.py`: every builtin preset exported through
`to_dict`. -/
def PRESET : List (String × Value) :=
  BUILTIN_PRESET_CONFIGS.map (fun q => (q.1, Value.dict (PresetConfig.to_dict q.2)))

/-- A heap of mutable `PresetConfig` objects, addressed by index; used to
model Python object identity for the builtin preset catalog, whose values
are shared references. -/
structure Heap where
  objs : List PresetConfig

/-- Dereference an object address. -/
def Heap.read (h : Heap) (r : Nat) : Option PresetConfig :=
  h.objs.get? r

/-- In-place mutation of the object at an address. -/
def Heap.write (h : Heap) (r : Nat) (c : PresetConfig) : Heap :=
  ⟨h.objs.set r c⟩

/-- The heap holding the eight builtin `PresetConfig` objects, built once
at import time of `config.py`. -/
def builtinHeap : Heap :=
  ⟨BUILTIN_PRESET_CONFIGS.map (fun q => q.2)⟩

/-- `list_builtin_presets`, heap-level view: it returns
`BUILTIN_PRESET_CONFIGS.copy()`, and `dict.copy` is a shallow copy — a
fresh outer dict whose values are the same object references, here the
addresses `0..7` of `builtinHeap` in catalog order. -/
def list_builtin_presets : List (String × Nat) :=
  [("full", 0), ("full-lin", 1), ("attn-mlp", 2), ("attn-only", 3), ("unet-only", 4),
   ("unet-transformer-only", 5), ("unet-convblock-only", 6), ("ia3", 7)]

/-- What a caller observes for a preset name: index the dict returned by
`list_builtin_presets` and dereference the obtained object. -/
def lookupPreset (h : Heap) (name : String) : Option PresetConfig :=
  (dictGet list_builtin_presets name).bind (fun r => Heap.read h r)

/-- `read_preset` of `utils/preset.py`, over the outcome of `toml.load`
(file I/O and TOML parsing are external; a failure of either is the
`Except.error` case, caught by the bare `except Exception`).  Only
`PresetValidationError` is caught around `from_dict`; any other exception
raised there propagates to the caller. -/
def read_preset (loaded : Except Unit PyDict) : Except PyError (Option PyDict) :=
  match loaded with
  | Except.error _ => Except.ok Option.none
  | Except.ok raw_config =>
    match PresetConfig.from_dict raw_config false with
    | Except.error (PyError.presetValidationError _) => Except.ok Option.none
    | Except.error e => Except.error e
    | Except.ok preset => Except.ok (Option.some (PresetConfig.to_dict preset))

/-! ### Dictionary lemmas -/

/-- Lookup in the empty dict. -/
theorem dictGet_nil {β : Type} (k : String) : dictGet ([] : List (String × β)) k = Option.none :=
  rfl

/-- A key that is not among the keys of a dict is not found. -/
theorem dictGet_eq_none_of_not_mem {β : Type} (d : List (String × β)) (k : String)
    (h : k ∉ dictKeys d) : dictGet d k = Option.none := by
  induction d with
  | nil => rfl
  | cons q rest ih =>
    simp only [dictKeys, List.map_cons, List.mem_cons, not_or] at h
    simp only [dictGet]
    rw [if_neg (fun hq => h.1 hq.symm)]
    exact ih (by simpa [dictKeys] using h.2)

/-- Assignment of a fresh key appends the entry at the end. -/
theorem dset_of_not_mem {β : Type} (d : List (String × β)) (k : String) (v : β)
    (h : k ∉ dictKeys d) : dset d k v = d ++ [(k, v)] := by
  induction d with
  | nil => rfl
  | cons q rest ih =>
    simp only [dictKeys, List.map_cons, List.mem_cons, not_or] at h
    simp only [dset]
    rw [if_neg (fun hq => h.1 hq.symm), ih (by simpa [dictKeys] using h.2)]
    rfl

/-- Skipping a `maybeSet` fragment with a different key. -/
theorem dictGet_skip_maybeSet (key k : String) (v : Value) (rest : PyDict) (hne : key ≠ k) :
    dictGet (maybeSet key v ++ rest) k = dictGet rest k := by
  by_cases h : v = Value.none <;> simp [maybeSet, h, dictGet, hne]

/-- Skipping a lone `maybeSet` fragment with a different key. -/
theorem dictGet_skip_maybeSet_nil (key k : String) (v : Value) (hne : key ≠ k) :
    dictGet (maybeSet key v) k = Option.none := by
  by_cases h : v = Value.none <;> simp [maybeSet, h, dictGet, hne]

/-- Unset-stripping of an optional field value, as an `Option`. -/
def stripNone (v : Value) : Option Value :=
  if v = Value.none then Option.none else Option.some v

/-- Hitting a `maybeSet` fragment when nothing later holds the key. -/
theorem dictGet_hit_maybeSet (k : String) (v : Value) (rest : PyDict)
    (hrest : dictGet rest k = Option.none) :
    dictGet (maybeSet k v ++ rest) k = stripNone v := by
  by_cases h : v = Value.none <;> simp [maybeSet, h, dictGet, stripNone, hrest, _copy_value]

/-- Hitting a lone `maybeSet` fragment. -/
theorem dictGet_hit_maybeSet_nil (k : String) (v : Value) :
    dictGet (maybeSet k v) k = stripNone v := by
  by_cases h : v = Value.none <;> simp [maybeSet, h, dictGet, stripNone, _copy_value]

/-- The exported form of an algorithm map, as `to_dict` emits it. -/
def mapExport (m : List (String × AlgoOverride)) : Option Value :=
  if m = [] then Option.none
  else Option.some (Value.dict (m.map (fun q => (q.1, Value.dict (AlgoOverride.to_dict q.2)))))

/-- Skipping a `mapSet` fragment with a different key. -/
theorem dictGet_skip_mapSet (key k : String) (m : List (String × AlgoOverride)) (rest : PyDict)
    (hne : key ≠ k) : dictGet (mapSet key m ++ rest) k = dictGet rest k := by
  by_cases h : m = [] <;> simp [mapSet, h, dictGet, hne]

/-- Hitting a `mapSet` fragment when nothing later holds the key. -/
theorem dictGet_hit_mapSet (k : String) (m : List (String × AlgoOverride)) (rest : PyDict)
    (hrest : dictGet rest k = Option.none) :
    dictGet (mapSet k m ++ rest) k = mapExport m := by
  by_cases h : m = [] <;> simp [mapSet, h, dictGet, mapExport, hrest]

/-! ### Computing `to_dict` lookups -/

/-- When `extra` is empty (as `from_dict` always leaves it), `to_dict` is
just the concatenation of the twelve per-key fragments. -/
theorem to_dict_eq_fragments (p : PresetConfig) (hx : PresetConfig.extra p = []) :
    PresetConfig.to_dict p =
      maybeSet "enable_conv" p.enable_conv
        ++ (maybeSet "target_module" p.target_module
        ++ (maybeSet "target_name" p.target_name
        ++ (mapSet "module_algo_map" p.module_algo_map
        ++ (mapSet "name_algo_map" p.name_algo_map
        ++ (maybeSet "lora_prefix" ( PresetConfig.lora_prefix p)
        ++ (maybeSet "use_fnmatch" p.use_fnmatch
        ++ (maybeSet "unet_target_module" p.unet_target_module
        ++ (maybeSet "unet_target_name" p.unet_target_name
        ++ (maybeSet "text_encoder_target_module" p.text_encoder_target_module
        ++ (maybeSet "text_encoder_target_name" p.text_encoder_target_name
        ++ maybeSet "exclude_name" p.exclude_name)))))))))) := by
  unfold PresetConfig.to_dict
  rw [hx]
  simp [dupdate, List.append_assoc]

/-- The `to_dict` lookup at `"enable_conv"`. -/
theorem dictGet_to_dict_enable_conv (p : PresetConfig) (hx : PresetConfig.extra p = []) :
    dictGet (PresetConfig.to_dict p) "enable_conv" = stripNone p.enable_conv := by
  rw [to_dict_eq_fragments p hx]
  simp [dictGet_skip_maybeSet, dictGet_skip_mapSet, dictGet_hit_maybeSet,
    dictGet_skip_maybeSet_nil, dictGet_hit_maybeSet_nil, dictGet_hit_mapSet, dictGet_nil]

/-- The `to_dict` lookup at `"target_module"`. -/
theorem dictGet_to_dict_target_module (p : PresetConfig) (hx : PresetConfig.extra p = []) :
    dictGet (PresetConfig.to_dict p) "target_module" = stripNone p.target_module := by
  rw [to_dict_eq_fragments p hx]
  simp [dictGet_skip_maybeSet, dictGet_skip_mapSet, dictGet_hit_maybeSet,
    dictGet_skip_maybeSet_nil, dictGet_hit_maybeSet_nil, dictGet_hit_mapSet, dictGet_nil]

/-- The `to_dict` lookup at `"target_name"`. -/
theorem dictGet_to_dict_target_name (p : PresetConfig) (hx : PresetConfig.extra p = []) :
    dictGet (PresetConfig.to_dict p) "target_name" = stripNone p.target_name := by
  rw [to_dict_eq_fragments p hx]
  simp [dictGet_skip_maybeSet, dictGet_skip_mapSet, dictGet_hit_maybeSet,
    dictGet_skip_maybeSet_nil, dictGet_hit_maybeSet_nil, dictGet_hit_mapSet, dictGet_nil]

/-- The `to_dict` lookup at `"module_algo_map"`. -/
theorem dictGet_to_dict_module_algo_map (p : PresetConfig) (hx : PresetConfig.extra p = []) :
    dictGet (PresetConfig.to_dict p) "module_algo_map" = mapExport p.module_algo_map := by
  rw [to_dict_eq_fragments p hx]
  simp [dictGet_skip_maybeSet, dictGet_skip_mapSet, dictGet_hit_maybeSet,
    dictGet_skip_maybeSet_nil, dictGet_hit_maybeSet_nil, dictGet_hit_mapSet, dictGet_nil]

/-- The `to_dict` lookup at `"name_algo_map"`. -/
theorem dictGet_to_dict_name_algo_map (p : PresetConfig) (hx : PresetConfig.extra p = []) :
    dictGet (PresetConfig.to_dict p) "name_algo_map" = mapExport p.name_algo_map := by
  rw [to_dict_eq_fragments p hx]
  simp [dictGet_skip_maybeSet, dictGet_skip_mapSet, dictGet_hit_maybeSet,
    dictGet_skip_maybeSet_nil, dictGet_hit_maybeSet_nil, dictGet_hit_mapSet, dictGet_nil]

/-- The `to_dict` lookup at `"lora_prefix"`. -/
theorem dictGet_to_dict_lora (p : PresetConfig) (hx : PresetConfig.extra p = []) :
    dictGet (PresetConfig.to_dict p) "lora_prefix" = stripNone ( PresetConfig.lora_prefix p) := by
  rw [to_dict_eq_fragments p hx]
  simp [dictGet_skip_maybeSet, dictGet_skip_mapSet, dictGet_hit_maybeSet,
    dictGet_skip_maybeSet_nil, dictGet_hit_maybeSet_nil, dictGet_hit_mapSet, dictGet_nil]

/-- The `to_dict` lookup at `"use_fnmatch"`. -/
theorem dictGet_to_dict_use_fnmatch (p : PresetConfig) (hx : PresetConfig.extra p = []) :
    dictGet (PresetConfig.to_dict p) "use_fnmatch" = stripNone p.use_fnmatch := by
  rw [to_dict_eq_fragments p hx]
  simp [dictGet_skip_maybeSet, dictGet_skip_mapSet, dictGet_hit_maybeSet,
    dictGet_skip_maybeSet_nil, dictGet_hit_maybeSet_nil, dictGet_hit_mapSet, dictGet_nil]

/-- The `to_dict` lookup at `"unet_target_module"`. -/
theorem dictGet_to_dict_unet_target_module (p : PresetConfig) (hx : PresetConfig.extra p = []) :
    dictGet (PresetConfig.to_dict p) "unet_target_module" = stripNone p.unet_target_module := by
  rw [to_dict_eq_fragments p hx]
  simp [dictGet_skip_maybeSet, dictGet_skip_mapSet, dictGet_hit_maybeSet,
    dictGet_skip_maybeSet_nil, dictGet_hit_maybeSet_nil, dictGet_hit_mapSet, dictGet_nil]

/-- The `to_dict` lookup at `"unet_target_name"`. -/
theorem dictGet_to_dict_unet_target_name (p : PresetConfig) (hx : PresetConfig.extra p = []) :
    dictGet (PresetConfig.to_dict p) "unet_target_name" = stripNone p.unet_target_name := by
  rw [to_dict_eq_fragments p hx]
  simp [dictGet_skip_maybeSet, dictGet_skip_mapSet, dictGet_hit_maybeSet,
    dictGet_skip_maybeSet_nil, dictGet_hit_maybeSet_nil, dictGet_hit_mapSet, dictGet_nil]

/-- The `to_dict` lookup at `"text_encoder_target_module"`. -/
theorem dictGet_to_dict_te_target_module (p : PresetConfig) (hx : PresetConfig.extra p = []) :
    dictGet (PresetConfig.to_dict p) "text_encoder_target_module"
      = stripNone p.text_encoder_target_module := by
  rw [to_dict_eq_fragments p hx]
  simp [dictGet_skip_maybeSet, dictGet_skip_mapSet, dictGet_hit_maybeSet,
    dictGet_skip_maybeSet_nil, dictGet_hit_maybeSet_nil, dictGet_hit_mapSet, dictGet_nil]

/-- The `to_dict` lookup at `"text_encoder_target_name"`. -/
theorem dictGet_to_dict_te_target_name (p : PresetConfig) (hx : PresetConfig.extra p = []) :
    dictGet (PresetConfig.to_dict p) "text_encoder_target_name"
      = stripNone p.text_encoder_target_name := by
  rw [to_dict_eq_fragments p hx]
  simp [dictGet_skip_maybeSet, dictGet_skip_mapSet, dictGet_hit_maybeSet,
    dictGet_skip_maybeSet_nil, dictGet_hit_maybeSet_nil, dictGet_hit_mapSet, dictGet_nil]

/-- The `to_dict` lookup at `"exclude_name"`. -/
theorem dictGet_to_dict_exclude_name (p : PresetConfig) (hx : PresetConfig.extra p = []) :
    dictGet (PresetConfig.to_dict p) "exclude_name" = stripNone p.exclude_name := by
  rw [to_dict_eq_fragments p hx]
  simp [dictGet_skip_maybeSet, dictGet_skip_mapSet, dictGet_hit_maybeSet,
    dictGet_skip_maybeSet_nil, dictGet_hit_maybeSet_nil, dictGet_hit_mapSet, dictGet_nil]

/-- Reading back a stored optional field: `getField` undoes `stripNone`. -/
theorem getField_of_stripNone (d : PyDict) (k : String) (v : Value)
    (h : dictGet d k = stripNone v) : getField d k = v := by
  unfold getField
  rw [h]
  by_cases hv : v = Value.none <;> simp [stripNone, hv, _copy_value]

/-- Every key of a `maybeSet` fragment is the fragment's key. -/
theorem mem_keys_maybeSet (key k : String) (v : Value)
    (h : k ∈ (maybeSet key v).map (fun q => q.1)) : k = key := by
  by_cases hv : v = Value.none
  · simp [maybeSet, hv] at h
  · simp [maybeSet, hv] at h
    tauto

/-- Every key of a `mapSet` fragment is the fragment's key. -/
theorem mem_keys_mapSet (key k : String) (m : List (String × AlgoOverride))
    (h : k ∈ (mapSet key m).map (fun q => q.1)) : k = key := by
  by_cases hm : m = []
  · simp [mapSet, hm] at h
  · simp [mapSet, hm] at h
    tauto

/-- Every key `to_dict` emits (for a config with empty `extra`) belongs to
the closed schema. -/
theorem to_dict_keys_valid (p : PresetConfig) (hx : PresetConfig.extra p = []) :
    ∀ k ∈ dictKeys (PresetConfig.to_dict p), VALID_PRESET_KEYS.contains k = true := by
  intro k hk
  rw [to_dict_eq_fragments p hx] at hk
  simp only [dictKeys, List.map_append, List.mem_append] at hk
  rcases hk with h | h | h | h | h | h | h | h | h | h | h | h
  all_goals first
    | (have he := mem_keys_maybeSet _ k _ h; subst he; decide)
    | (have he := mem_keys_mapSet _ k _ h; subst he; decide)

/-- Lookup distributes over concatenation, first hit wins. -/
theorem dictGet_append {β : Type} (xs ys : List (String × β)) (k : String) :
    dictGet (xs ++ ys) k =
      match dictGet xs k with
      | Option.some v => Option.some v
      | Option.none => dictGet ys k := by
  induction xs with
  | nil => simp [dictGet]
  | cons q rest ih =>
    simp only [List.cons_append, dictGet]
    split <;> simp [ih]

/-- Filtering out a key that does not occur leaves a dict unchanged. -/
theorem filter_ne_key_self (d : PyDict) (k : String) (h : k ∉ dictKeys d) :
    d.filter (fun q => q.1 ≠ k) = d := by
  apply List.filter_eq_self.mpr
  intro q hq
  simp only [decide_eq_true_eq]
  intro hk
  exact h (by simp [dictKeys]; exact ⟨q.2, hk ▸ hq⟩)

/-- `from_mapping` never keeps the reserved key among its options. -/
theorem from_mapping_no_algo (d : PyDict) :
    "algo" ∉ dictKeys (AlgoOverride.from_mapping d).options := by
  intro h
  simp only [AlgoOverride.from_mapping, dictKeys, List.mem_map] at h
  obtain ⟨q, hq, hk⟩ := h
  rw [List.mem_filter] at hq
  rw [hk] at hq
  simp at hq

/-- A successfully parsed override never keeps the reserved key among its
options. -/
theorem parseOverride_ok_no_algo (v : Value) (o : AlgoOverride)
    (h : parseOverride v = Except.ok o) : "algo" ∉ dictKeys o.options := by
  unfold parseOverride at h
  split at h
  · split at h
    all_goals first
      | (injection h with h2; exact h2 ▸ from_mapping_no_algo _)
      | exact Except.noConfusion h
  · injection h with h2
    exact h2 ▸ from_mapping_no_algo _

/-- Re-parsing an exported override recovers it, provided its options do
not hold the reserved key (which `from_mapping` guarantees). -/
theorem parseOverride_to_dict (o : AlgoOverride)
    (h : "algo" ∉ dictKeys o.options) :
    parseOverride (Value.dict (AlgoOverride.to_dict o)) = Except.ok o := by
  obtain ⟨a, opts⟩ := o
  simp only at h
  by_cases ha : a = Value.none
  · subst ha
    have htd : AlgoOverride.to_dict ⟨Value.none, opts⟩ = opts := by
      simp [AlgoOverride.to_dict]
    rw [htd]
    by_cases hop : opts = []
    · subst hop
      rfl
    · unfold parseOverride
      rw [if_pos (by simp [truthy, hop])]
      simp only [AlgoOverride.from_mapping, Except.ok.injEq]
      rw [dictGet_eq_none_of_not_mem _ _ h, filter_ne_key_self _ _ h]
      rfl
  · have htd : AlgoOverride.to_dict ⟨a, opts⟩ = dset opts "algo" a := by
      simp [AlgoOverride.to_dict, ha]
    rw [htd, dset_of_not_mem _ _ _ h]
    unfold parseOverride
    rw [if_pos (by simp [truthy])]
    simp only [AlgoOverride.from_mapping, Except.ok.injEq]
    rw [dictGet_append]
    rw [dictGet_eq_none_of_not_mem _ _ h]
    simp only [dictGet, if_pos rfl, Option.getD_some, List.filter_append]
    rw [filter_ne_key_self _ _ h]
    simp [ha]

/-- Re-parsing an exported algorithm map (non-strict) recovers every
override, in order. -/
theorem parseEntries_to_dict (m : List (String × AlgoOverride))
    (h : ∀ q ∈ m, "algo" ∉ dictKeys q.2.options) :
    parseEntries (m.map (fun q => (q.1, Value.dict (AlgoOverride.to_dict q.2)))) false
      = Except.ok m := by
  induction m with
  | nil => rfl
  | cons q rest ih =>
    obtain ⟨k, o⟩ := q
    simp only [List.map_cons]
    unfold parseEntries
    rw [parseOverride_to_dict o (h (k, o) (List.mem_cons_self _ _))]
    simp only [if_neg (Bool.false_ne_true)]
    rw [ih (fun q hq => h q (List.mem_cons_of_mem _ hq))]

/-- Every override produced by the entry loop of `from_dict` has no
reserved key among its options. -/
theorem parseEntries_ok_no_algo (entries : PyDict) (strict : Bool)
    (m : List (String × AlgoOverride)) (h : parseEntries entries strict = Except.ok m) :
    ∀ q ∈ m, "algo" ∉ dictKeys q.2.options := by
  induction entries generalizing m with
  | nil =>
    unfold parseEntries at h
    injection h with h2
    subst h2
    intro q hq
    exact absurd hq (List.not_mem_nil _)
  | cons e rest ih =>
    obtain ⟨k, v⟩ := e
    unfold parseEntries at h
    split at h
    · exact Except.noConfusion h
    · rename_i o hpo
      split at h
      · exact Except.noConfusion h
      · split at h
        · exact Except.noConfusion h
        · rename_i os hrest
          injection h with h2
          subst h2
          intro q hq
          rcases List.mem_cons.mp hq with hq | hq
          · subst hq
            exact parseOverride_ok_no_algo v o hpo
          · exact ih os hrest q hq

/-- Parsing an algorithm-map key whose stored value is the export of `m`
(non-strict) recovers `m`, provided no override holds the reserved key. -/
theorem parseAlgoMap_mapExport (d : PyDict) (key : String)
    (m : List (String × AlgoOverride)) (hd : dictGet d key = mapExport m)
    (hm : ∀ q ∈ m, "algo" ∉ dictKeys q.2.options) :
    parseAlgoMap d key false = Except.ok m := by
  unfold parseAlgoMap
  rw [hd]
  by_cases hme : m = []
  · subst hme
    simp [mapExport, truthy, parseEntries]
  · simp only [mapExport, if_neg hme, Option.getD_some]
    rw [if_pos (by simp [truthy, hme])]
    exact parseEntries_to_dict m hm

/-- A non-empty parsed algorithm map can only come from a present,
truthy dict value. -/
theorem parseAlgoMap_ne_nil_mem (data : PyDict) (key : String) (strict : Bool)
    (m : List (String × AlgoOverride)) (h : parseAlgoMap data key strict = Except.ok m)
    (hne : m ≠ []) : ∃ v, dictGet data key = Option.some v := by
  cases hd : dictGet data key with
  | some v => exact ⟨v, rfl⟩
  | none =>
    unfold parseAlgoMap at h
    rw [hd] at h
    simp only [Option.getD_none, truthy] at h
    unfold parseEntries at h
    injection h with h2
    exact absurd h2.symm hne

/-- Inversion of a successful `from_dict`: the unknown-key check passed,
both algorithm maps parsed to the config's maps, every scalar field is the
ingested raw value, and `extra` is empty. -/
theorem from_dict_ok_inv (data : PyDict) (strict : Bool) (p : PresetConfig)
    (h : PresetConfig.from_dict data strict = Except.ok p) :
    ((dictKeys data).filter (fun k => !(VALID_PRESET_KEYS.contains k))) = []
      ∧ parseAlgoMap data "module_algo_map" strict = Except.ok p.module_algo_map
      ∧ parseAlgoMap data "name_algo_map" strict = Except.ok p.name_algo_map
      ∧ p.enable_conv = getField data "enable_conv"
      ∧ p.target_module = getField data "target_module"
      ∧ p.target_name = getField data "target_name"
      ∧ PresetConfig.lora_prefix p = getField data "lora_prefix"
      ∧ p.use_fnmatch = getField data "use_fnmatch"
      ∧ p.unet_target_module = getField data "unet_target_module"
      ∧ p.unet_target_name = getField data "unet_target_name"
      ∧ p.text_encoder_target_module = getField data "text_encoder_target_module"
      ∧ p.text_encoder_target_name = getField data "text_encoder_target_name"
      ∧ p.exclude_name = getField data "exclude_name"
      ∧ PresetConfig.extra p = [] := by
  simp only [PresetConfig.from_dict] at h
  split at h
  · exact Except.noConfusion h
  · rename_i hkeys
    split at h
    · exact Except.noConfusion h
    · rename_i module_map hmm
      split at h
      · exact Except.noConfusion h
      · rename_i name_map hnm
        injection h with h2
        subst h2
        exact ⟨not_ne_iff.mp hkeys, hmm, hnm, rfl, rfl, rfl, rfl, rfl, rfl, rfl, rfl, rfl, rfl, rfl⟩

/-- A present key is found by lookup. -/
theorem dictGet_isSome_of_mem_keys {β : Type} (d : List (String × β)) (k : String)
    (h : k ∈ dictKeys d) : ∃ v, dictGet d k = Option.some v := by
  induction d with
  | nil => simp [dictKeys] at h
  | cons q rest ih =>
    by_cases hq : q.1 = k
    · exact ⟨q.2, by simp [dictGet, hq]⟩
    · simp only [dictKeys, List.map_cons, List.mem_cons] at h
      rcases h with h | h
      · exact absurd h.symm hq
      · obtain ⟨v, hv⟩ := ih h
        exact ⟨v, by simp [dictGet, hq, hv]⟩

/-- A found key is present. -/
theorem mem_keys_of_dictGet_some {β : Type} (d : List (String × β)) (k : String) (v : β)
    (h : dictGet d k = Option.some v) : k ∈ dictKeys d := by
  induction d with
  | nil => exact Option.noConfusion h
  | cons q rest ih =>
    simp only [dictGet] at h
    simp only [dictKeys, List.map_cons, List.mem_cons]
    split at h
    · rename_i hq
      exact Or.inl hq.symm
    · exact Or.inr (ih h)

/-- Every override produced by `parseAlgoMap` has no reserved key among
its options. -/
theorem parseAlgoMap_ok_no_algo (data : PyDict) (key : String) (strict : Bool)
    (m : List (String × AlgoOverride)) (h : parseAlgoMap data key strict = Except.ok m) :
    ∀ q ∈ m, "algo" ∉ dictKeys q.2.options := by
  simp only [parseAlgoMap] at h
  split at h
  · split at h
    · exact parseEntries_ok_no_algo _ _ _ h
    · exact Except.noConfusion h
  · exact parseEntries_ok_no_algo _ _ _ h

/-- A stripped field that is found must have been set. -/
theorem ne_none_of_stripNone_some (v w : Value) (h : stripNone v = Option.some w) :
    v ≠ Value.none := by
  intro hv
  rw [hv] at h
  simp [stripNone] at h

/-- An exported algorithm map that is found must be non-empty. -/
theorem ne_nil_of_mapExport_some (m : List (String × AlgoOverride)) (v : Value)
    (h : mapExport m = Option.some v) : m ≠ [] := by
  intro h0
  rw [h0] at h
  simp [mapExport] at h

/-- A key whose ingested field is set was present in the input. -/
theorem mem_input_of_getField_ne_none (data : PyDict) (k : String)
    (h : getField data k ≠ Value.none) : k ∈ dictKeys data := by
  unfold getField at h
  cases hd : dictGet data k with
  | none => rw [hd] at h; exact absurd rfl h
  | some v => exact mem_keys_of_dictGet_some _ _ _ hd

/-- C1: for every preset mapping built from recognized keys that
`from_dict` accepts, the round trip through `to_dict` is semantically
equivalent to the input: (1) re-parsing the exported mapping recovers the
identical `PresetConfig`, so no semantic content is lost or invented;
(2) every explicitly-set scalar/list value is emitted verbatim, while a
`None` (or absent) optional field is omitted; (3)-(4) an empty algorithm
map is omitted; (5) no key is emitted that was not present in the input. -/
theorem C1_roundtrip (data : PyDict) (p : PresetConfig)
    (hp : PresetConfig.from_dict data false = Except.ok p) :
    PresetConfig.from_dict (PresetConfig.to_dict p) false = Except.ok p
      ∧ (∀ k ∈ ["enable_conv", "target_module", "target_name", "lora_prefix",
            "use_fnmatch", "unet_target_module", "unet_target_name",
            "text_encoder_target_module", "text_encoder_target_name", "exclude_name"],
          dictGet (PresetConfig.to_dict p) k = stripNone (getField data k))
      ∧ (p.module_algo_map = [] →
          dictGet (PresetConfig.to_dict p) "module_algo_map" = Option.none)
      ∧ (p.name_algo_map = [] →
          dictGet (PresetConfig.to_dict p) "name_algo_map" = Option.none)
      ∧ (∀ k ∈ dictKeys (PresetConfig.to_dict p), k ∈ dictKeys data) := by
  obtain ⟨hfil, hmm, hnm, he1, he2, he3, he6, he7, he8, he9, he10, he11, he12, hx⟩ :=
    from_dict_ok_inv data false p hp
  have hmalg := parseAlgoMap_ok_no_algo _ _ _ _ hmm
  have hnalg := parseAlgoMap_ok_no_algo _ _ _ _ hnm
  have hA := parseAlgoMap_mapExport (PresetConfig.to_dict p) "module_algo_map"
    p.module_algo_map (dictGet_to_dict_module_algo_map p hx) hmalg
  have hB := parseAlgoMap_mapExport (PresetConfig.to_dict p) "name_algo_map"
    p.name_algo_map (dictGet_to_dict_name_algo_map p hx) hnalg
  have hvk : ((dictKeys (PresetConfig.to_dict p)).filter
      (fun k => !(VALID_PRESET_KEYS.contains k))) = [] := by
    apply List.filter_eq_nil_iff.mpr
    intro k hk
    rw [to_dict_keys_valid p hx k hk]
    decide
  have hs1 := getField_of_stripNone _ _ _ (dictGet_to_dict_enable_conv p hx)
  have hs2 := getField_of_stripNone _ _ _ (dictGet_to_dict_target_module p hx)
  have hs3 := getField_of_stripNone _ _ _ (dictGet_to_dict_target_name p hx)
  have hs6 := getField_of_stripNone _ _ _ (dictGet_to_dict_lora p hx)
  have hs7 := getField_of_stripNone _ _ _ (dictGet_to_dict_use_fnmatch p hx)
  have hs8 := getField_of_stripNone _ _ _ (dictGet_to_dict_unet_target_module p hx)
  have hs9 := getField_of_stripNone _ _ _ (dictGet_to_dict_unet_target_name p hx)
  have hs10 := getField_of_stripNone _ _ _ (dictGet_to_dict_te_target_module p hx)
  have hs11 := getField_of_stripNone _ _ _ (dictGet_to_dict_te_target_name p hx)
  have hs12 := getField_of_stripNone _ _ _ (dictGet_to_dict_exclude_name p hx)
  refine ⟨?_, ?_, ?_, ?_, ?_⟩
  · simp only [PresetConfig.from_dict, hvk, hA, hB, hs1, hs2, hs3, hs6, hs7, hs8, hs9,
      hs10, hs11, hs12, ne_eq, not_true_eq_false, if_neg, ite_false]
    simp [← hx]
  · intro k hk
    fin_cases hk
    · rw [dictGet_to_dict_enable_conv p hx, he1]
    · rw [dictGet_to_dict_target_module p hx, he2]
    · rw [dictGet_to_dict_target_name p hx, he3]
    · rw [dictGet_to_dict_lora p hx, he6]
    · rw [dictGet_to_dict_use_fnmatch p hx, he7]
    · rw [dictGet_to_dict_unet_target_module p hx, he8]
    · rw [dictGet_to_dict_unet_target_name p hx, he9]
    · rw [dictGet_to_dict_te_target_module p hx, he10]
    · rw [dictGet_to_dict_te_target_name p hx, he11]
    · rw [dictGet_to_dict_exclude_name p hx, he12]
  · intro hm0
    rw [dictGet_to_dict_module_algo_map p hx, hm0]
    simp [mapExport]
  · intro hn0
    rw [dictGet_to_dict_name_algo_map p hx, hn0]
    simp [mapExport]
  · intro k hk
    have hkmem : k ∈ VALID_PRESET_KEYS := by
      have hc := to_dict_keys_valid p hx k hk
      rwa [List.elem_iff] at hc
    obtain ⟨v, hsome⟩ := dictGet_isSome_of_mem_keys _ _ hk
    fin_cases hkmem
    · rw [dictGet_to_dict_enable_conv p hx] at hsome
      apply mem_input_of_getField_ne_none
      rw [← he1]
      exact ne_none_of_stripNone_some _ _ hsome
    · rw [dictGet_to_dict_target_module p hx] at hsome
      apply mem_input_of_getField_ne_none
      rw [← he2]
      exact ne_none_of_stripNone_some _ _ hsome
    · rw [dictGet_to_dict_target_name p hx] at hsome
      apply mem_input_of_getField_ne_none
      rw [← he3]
      exact ne_none_of_stripNone_some _ _ hsome
    · rw [dictGet_to_dict_module_algo_map p hx] at hsome
      obtain ⟨w, hw⟩ := parseAlgoMap_ne_nil_mem data _ false _ hmm
        (ne_nil_of_mapExport_some _ _ hsome)
      exact mem_keys_of_dictGet_some _ _ _ hw
    · rw [dictGet_to_dict_name_algo_map p hx] at hsome
      obtain ⟨w, hw⟩ := parseAlgoMap_ne_nil_mem data _ false _ hnm
        (ne_nil_of_mapExport_some _ _ hsome)
      exact mem_keys_of_dictGet_some _ _ _ hw
    · rw [dictGet_to_dict_lora p hx] at hsome
      apply mem_input_of_getField_ne_none
      rw [← he6]
      exact ne_none_of_stripNone_some _ _ hsome
    · rw [dictGet_to_dict_use_fnmatch p hx] at hsome
      apply mem_input_of_getField_ne_none
      rw [← he7]
      exact ne_none_of_stripNone_some _ _ hsome
    · rw [dictGet_to_dict_unet_target_module p hx] at hsome
      apply mem_input_of_getField_ne_none
      rw [← he8]
      exact ne_none_of_stripNone_some _ _ hsome
    · rw [dictGet_to_dict_unet_target_name p hx] at hsome
      apply mem_input_of_getField_ne_none
      rw [← he9]
      exact ne_none_of_stripNone_some _ _ hsome
    · rw [dictGet_to_dict_te_target_module p hx] at hsome
      apply mem_input_of_getField_ne_none
      rw [← he10]
      exact ne_none_of_stripNone_some _ _ hsome
    · rw [dictGet_to_dict_te_target_name p hx] at hsome
      apply mem_input_of_getField_ne_none
      rw [← he11]
      exact ne_none_of_stripNone_some _ _ hsome
    · rw [dictGet_to_dict_exclude_name p hx] at hsome
      apply mem_input_of_getField_ne_none
      rw [← he12]
      exact ne_none_of_stripNone_some _ _ hsome

/-- Witness for C1: a concrete accepted mapping (a set scalar, an
explicit `None` scalar, a `None` map entry) and its round trip. -/
theorem C1_roundtrip_witness :
    PresetConfig.from_dict
        [("enable_conv", Value.bool true), ("exclude_name", Value.none),
         ("name_algo_map", Value.dict
           [("x", Value.dict [("algo", Value.str "lora"), ("dim", Value.int 8)]),
            ("y", Value.none)])] false
      = Except.ok
          { enable_conv := Value.bool true
            name_algo_map :=
              [("x", { algo := Value.str "lora", options := [("dim", Value.int 8)] }),
               ("y", { algo := Value.none, options := [] })] }
      ∧ PresetConfig.from_dict
          (PresetConfig.to_dict
            { enable_conv := Value.bool true
              name_algo_map :=
                [("x", { algo := Value.str "lora", options := [("dim", Value.int 8)] }),
                 ("y", { algo := Value.none, options := [] })] }) false
        = Except.ok
            { enable_conv := Value.bool true
              name_algo_map :=
                [("x", { algo := Value.str "lora", options := [("dim", Value.int 8)] }),
                 ("y", { algo := Value.none, options := [] })] } := by
  have h : PresetConfig.from_dict
      [("enable_conv", Value.bool true), ("exclude_name", Value.none),
       ("name_algo_map", Value.dict
         [("x", Value.dict [("algo", Value.str "lora"), ("dim", Value.int 8)]),
          ("y", Value.none)])] false
    = Except.ok
        { enable_conv := Value.bool true
          name_algo_map :=
            [("x", { algo := Value.str "lora", options := [("dim", Value.int 8)] }),
             ("y", { algo := Value.none, options := [] })] } := rfl
  exact ⟨h, (C1_roundtrip _ _ h).1⟩

/-- The exported `"ia3"` catalog entry (`PRESET["ia3"]`). -/
def ia3_export : PyDict :=
  match dictGet PRESET "ia3" with
  | Option.some (Value.dict d) => d
  | _ => []

/-- The exported `name_algo_map` of the `"ia3"` catalog entry. -/
def ia3_name_algo_map_export : PyDict :=
  match dictGet ia3_export "name_algo_map" with
  | Option.some (Value.dict d) => d
  | _ => []

/-- C2, counterexample: in the exported `"ia3"` preset the
`"ff.net.2"` entry of `name_algo_map` is exactly the mapping
`train_on_input = True` and carries no `algo` key at all, so it does not
carry `algo = "ia3"` as the claim states. -/
theorem C2_counterexample :
    dictGet ia3_name_algo_map_export "ff.net.2"
      = Option.some (Value.dict [("train_on_input", Value.bool true)])
      ∧ dictGet [("train_on_input", Value.bool true)] "algo" ≠ Option.some (Value.str "ia3")
      ∧ dictGet [("train_on_input", Value.bool true)] "algo" = Option.none := by
  refine ⟨rfl, by decide, rfl⟩

/-- C2, amended: the built-in `"ia3"` preset, exported via `to_dict`,
contains `name_algo_map` entries for both `"ff.net.2"` and `"mlp.fc2"`,
each carrying exactly the option `train_on_input = True` and no `algo`
field (the overrides are built with `algo` left at `None`, which
`to_dict` omits). -/
theorem C2_amended :
    dictGet ia3_name_algo_map_export "ff.net.2"
      = Option.some (Value.dict [("train_on_input", Value.bool true)])
      ∧ dictGet ia3_name_algo_map_export "mlp.fc2"
        = Option.some (Value.dict [("train_on_input", Value.bool true)])
      ∧ dictGet [("train_on_input", Value.bool true)] "algo" = Option.none := by
  refine ⟨rfl, rfl, rfl⟩

/-- C3, counterexample: the catalog lookup is NOT structurally
independent.  Caller 1 obtains the dict returned by
`list_builtin_presets` and the `"ia3"` object it references (address 7),
and mutates that object in place (here: sets `enable_conv` to `True`).
A second, independent lookup of `"ia3"` then observes the mutated
object, because `dict.copy()` copies only the outer dict and shares the
stored `PresetConfig` values. -/
theorem C3_counterexample :
    dictGet list_builtin_presets "ia3" = Option.some 7
      ∧ lookupPreset builtinHeap "ia3" = Option.some preset_ia3
      ∧ lookupPreset
          (Heap.write builtinHeap 7 { preset_ia3 with enable_conv := Value.bool true }) "ia3"
        = Option.some { preset_ia3 with enable_conv := Value.bool true }
      ∧ lookupPreset
          (Heap.write builtinHeap 7 { preset_ia3 with enable_conv := Value.bool true }) "ia3"
        ≠ lookupPreset builtinHeap "ia3" := by
  refine ⟨rfl, rfl, rfl, ?_⟩
  intro h
  have h2 := congrArg (fun o => Option.map (fun c => PresetConfig.enable_conv c) o) h
  simp only [lookupPreset] at h2
  exact absurd h2 (by decide)

/-- Reading back the freshly written cell of a list. -/
theorem get_set_self {α : Type} (l : List α) (n : Nat) (a : α) (h : n < l.length) :
    (l.set n a).get? n = Option.some a := by
  induction l generalizing n with
  | nil => simp at h
  | cons x xs ih =>
    cases n with
    | zero => rfl
    | succ m => exact ih m (by simpa using h)

/-- C3, amended: `list_builtin_presets` returns a fresh outer dict (so
reassigning entries of the returned dict cannot touch the catalog), but
the copy is shallow: the stored `PresetConfig` objects are shared, so
after a caller mutates in place the object it obtained for some preset
name, every subsequent lookup of that name returns the mutated object. -/
theorem C3_amended (h : Heap) (name : String) (r : Nat) (c : PresetConfig)
    (hr : dictGet list_builtin_presets name = Option.some r)
    (hlt : r < h.objs.length) :
    lookupPreset (Heap.write h r c) name = Option.some c := by
  unfold lookupPreset Heap.read Heap.write
  rw [hr]
  show (h.objs.set r c).get? r = Option.some c
  exact get_set_self h.objs r c hlt

/-- Witness for C3_amended: mutating the `"ia3"` object (address 7) in
the builtin heap makes the next lookup return the mutated object. -/
theorem C3_amended_witness :
    lookupPreset (Heap.write builtinHeap 7 ({} : PresetConfig)) "ia3"
      = Option.some ({} : PresetConfig) :=
  C3_amended builtinHeap "ia3" 7 ({} : PresetConfig) rfl (by decide)

/-- Membership in an insertion step of the sort. -/
theorem mem_insortStr (x y : String) (l : List String) :
    x ∈ insortStr y l ↔ x = y ∨ x ∈ l := by
  induction l with
  | nil => simp [insortStr]
  | cons z t ih =>
    unfold insortStr
    split
    · simp
    · simp only [List.mem_cons, ih]
      tauto

/-- Sorting preserves membership. -/
theorem mem_sortStrs (x : String) (l : List String) (h : x ∈ l) : x ∈ sortStrs l := by
  induction l with
  | nil => simp at h
  | cons y t ih =>
    rw [show sortStrs (y :: t) = insortStr y (sortStrs t) from rfl, mem_insortStr]
    rcases List.mem_cons.mp h with h | h
    · exact Or.inl h
    · exact Or.inr (ih h)

/-- Every element of a joined list occurs verbatim inside the join. -/
theorem commaJoin_substring (x : String) (l : List String) (h : x ∈ l) :
    ∃ a b, commaJoin l = a ++ (x ++ b) := by
  induction l with
  | nil => simp at h
  | cons y t ih =>
    cases t with
    | nil =>
      rcases List.mem_cons.mp h with h | h
      · subst h
        exact ⟨"", "", by simp [commaJoin, String.empty_append, String.append_empty]⟩
      · simp at h
    | cons z t2 =>
      rcases List.mem_cons.mp h with h | h
      · subst h
        refine ⟨"", ", " ++ commaJoin (z :: t2), ?_⟩
        rw [show commaJoin (x :: z :: t2) = x ++ ", " ++ commaJoin (z :: t2) from rfl]
        rw [String.empty_append, String.append_assoc]
      · obtain ⟨a, b, hab⟩ := ih h
        refine ⟨(y ++ ", ") ++ a, b, ?_⟩
        rw [show commaJoin (y :: z :: t2) = y ++ ", " ++ commaJoin (z :: t2) from rfl, hab]
        simp [String.append_assoc]

/-- C4: whenever the input mapping holds at least one top-level key
outside the closed schema, `from_dict` (at either strictness) fails with
a `PresetValidationError` whose message spells out every unrecognized key
(fail-collect), and no `PresetConfig` is produced. -/
theorem C4_unknown_keys (data : PyDict) (strict : Bool) (k0 : String)
    (hk0 : k0 ∈ dictKeys data) (hinv : VALID_PRESET_KEYS.contains k0 = false) :
    ∃ msg,
      PresetConfig.from_dict data strict = Except.error (PyError.presetValidationError msg)
        ∧ (∀ k, k ∈ dictKeys data → VALID_PRESET_KEYS.contains k = false →
            ∃ pre post, msg = pre ++ (k ++ post))
        ∧ ∀ q, PresetConfig.from_dict data strict ≠ Except.ok q := by
  have hne : (dictKeys data).filter (fun k => !(VALID_PRESET_KEYS.contains k)) ≠ [] := by
    intro h0
    have hmem : k0 ∈ (dictKeys data).filter (fun k => !(VALID_PRESET_KEYS.contains k)) :=
      List.mem_filter.mpr ⟨hk0, by rw [hinv]; rfl⟩
    rw [h0] at hmem
    exact List.not_mem_nil _ hmem
  have herr : PresetConfig.from_dict data strict
      = Except.error (PyError.presetValidationError
          (unknownKeysMsg ((dictKeys data).filter (fun k => !(VALID_PRESET_KEYS.contains k))))) := by
    simp only [PresetConfig.from_dict]
    rw [if_pos hne]
  refine ⟨_, herr, ?_, ?_⟩
  · intro k hk hkv
    have hmem : k ∈ sortStrs ((dictKeys data).filter (fun k => !(VALID_PRESET_KEYS.contains k))) :=
      mem_sortStrs _ _ (List.mem_filter.mpr ⟨hk, by rw [hkv]; rfl⟩)
    obtain ⟨a, b, hab⟩ := commaJoin_substring k _ hmem
    refine ⟨"Unknown preset keys: " ++ a,
      b ++ (". Valid keys: " ++ commaJoin VALID_PRESET_KEYS), ?_⟩
    unfold unknownKeysMsg
    rw [hab]
    simp [String.append_assoc]
  · intro q hq
    rw [herr] at hq
    exact Except.noConfusion hq

/-- Witness for C4: a mapping with two unknown keys fails, its message
holds both of them, and no config is produced. -/
theorem C4_unknown_keys_witness :
    ∃ msg,
      PresetConfig.from_dict [("zfoo", Value.int 1), ("abar", Value.int 2)] true
          = Except.error (PyError.presetValidationError msg)
        ∧ (∀ k, k ∈ dictKeys [("zfoo", Value.int 1), ("abar", Value.int 2)] →
            VALID_PRESET_KEYS.contains k = false → ∃ pre post, msg = pre ++ (k ++ post))
        ∧ ∀ q, PresetConfig.from_dict [("zfoo", Value.int 1), ("abar", Value.int 2)] true
            ≠ Except.ok q :=
  C4_unknown_keys [("zfoo", Value.int 1), ("abar", Value.int 2)] true "zfoo"
    (by decide) (by decide)

/-- A key of a dict comes from some entry. -/
theorem exists_pair_of_mem_keys {β : Type} (d : List (String × β)) (k : String)
    (h : k ∈ dictKeys d) : ∃ v, (k, v) ∈ d := by
  induction d with
  | nil => simp [dictKeys] at h
  | cons q rest ih =>
    obtain ⟨k1, v1⟩ := q
    simp only [dictKeys, List.map_cons, List.mem_cons] at h
    rcases h with h | h
    · subst h
      exact ⟨v1, List.mem_cons_self _ _⟩
    · obtain ⟨v, hv⟩ := ih h
      exact ⟨v, List.mem_cons_of_mem _ hv⟩

/-- An entry's key is a key of the dict. -/
theorem mem_keys_of_pair_mem {β : Type} (d : List (String × β)) (k : String) (v : β)
    (h : (k, v) ∈ d) : k ∈ dictKeys d := by
  unfold dictKeys
  exact List.mem_map.mpr ⟨(k, v), h, rfl⟩

/-- Validation of a string-named override with a registered (lowercased)
name succeeds exactly when every option key is a supported argument. -/
theorem validate_str_ok_iff (s : String) (opts : PyDict) (spec : AlgoSpec)
    (hreg : dictGet ALGO_REGISTRY (pyLower s) = Option.some spec) :
    AlgoOverride.validate { algo := Value.str s, options := opts } = Except.ok ()
      ↔ ∀ k ∈ dictKeys opts, spec.supported_args.contains k = true := by
  simp only [AlgoOverride.validate, hreg]
  cases hf : opts.find? (fun q => !(spec.supported_args.contains q.1)) with
  | none =>
    simp only [hf]
    constructor
    · intro _ k hk
      obtain ⟨v, hv⟩ := exists_pair_of_mem_keys opts k hk
      have hq := List.find?_eq_none.mp hf (k, v) hv
      simpa using hq
    · intro _
      trivial
  | some q =>
    simp only [hf]
    constructor
    · intro hcontra
      exact Except.noConfusion hcontra
    · intro hall
      have hqmem := List.mem_of_find?_eq_some hf
      have hqp := List.find?_some hf
      obtain ⟨k1, v1⟩ := q
      have hk := hall k1 (mem_keys_of_pair_mem opts k1 v1 hqmem)
      rw [hk] at hqp
      simp at hqp

/-- Every failure of validating a string-named override is a
`PresetValidationError`. -/
theorem validate_str_error (s : String) (opts : PyDict)
    (h : AlgoOverride.validate { algo := Value.str s, options := opts } ≠ Except.ok ()) :
    ∃ msg, AlgoOverride.validate { algo := Value.str s, options := opts }
      = Except.error (PyError.presetValidationError msg) := by
  simp only [AlgoOverride.validate] at h ⊢
  cases hreg : dictGet ALGO_REGISTRY (pyLower s) with
  | none =>
    refine ⟨"Unknown algorithm " ++ s ++ ".", ?_⟩
    simp [hreg]
  | some spec =>
    cases hf : opts.find? (fun q => !(spec.supported_args.contains q.1)) with
    | none =>
      simp only [hreg, hf] at h
      exact absurd rfl h
    | some q =>
      refine ⟨"Unsupported option " ++ q.1 ++ " for algo " ++ s ++ ". Supported options: "
        ++ commaJoin spec.supported_args, ?_⟩
      simp only [hreg, hf]

/-- C5: `validate` is a no-op when `algo` is unset; for a string `algo`
it succeeds if and only if the lowercased name is in the registry and
every option key is among that algorithm's supported arguments, and every
failure is a `PresetValidationError`.  Concretely,
`{"algo": "ia3", "dim": 4}` is rejected (ia3 accepts no arguments) while
`{"algo": "lokr", "factor": 8, "dim": 10000}` validates. -/
theorem C5_validate :
    (∀ o : AlgoOverride, o.algo = Value.none → AlgoOverride.validate o = Except.ok ())
      ∧ (∀ (s : String) (opts : PyDict),
          AlgoOverride.validate { algo := Value.str s, options := opts } = Except.ok ()
            ↔ ∃ spec, dictGet ALGO_REGISTRY (pyLower s) = Option.some spec
                ∧ ∀ k ∈ dictKeys opts, spec.supported_args.contains k = true)
      ∧ (∀ (s : String) (opts : PyDict),
          AlgoOverride.validate { algo := Value.str s, options := opts } ≠ Except.ok () →
          ∃ msg, AlgoOverride.validate { algo := Value.str s, options := opts }
            = Except.error (PyError.presetValidationError msg))
      ∧ (∃ msg, AlgoOverride.validate
            (AlgoOverride.from_mapping [("algo", Value.str "ia3"), ("dim", Value.int 4)])
          = Except.error (PyError.presetValidationError msg))
      ∧ AlgoOverride.validate
          (AlgoOverride.from_mapping
            [("algo", Value.str "lokr"), ("factor", Value.int 8), ("dim", Value.int 10000)])
        = Except.ok () := by
  refine ⟨?_, ?_, validate_str_error, ⟨_, rfl⟩, rfl⟩
  · intro o h
    obtain ⟨a, opts⟩ := o
    simp only at h
    subst h
    rfl
  · intro s opts
    constructor
    · intro hok
      cases hreg : dictGet ALGO_REGISTRY (pyLower s) with
      | none =>
        simp only [AlgoOverride.validate, hreg] at hok
        exact Except.noConfusion hok
      | some spec =>
        exact ⟨spec, rfl, (validate_str_ok_iff s opts spec hreg).mp hok⟩
    · intro ⟨spec, hreg, hsup⟩
      exact (validate_str_ok_iff s opts spec hreg).mpr hsup

/-- Witness for C5: an override with unset `algo` validates as a no-op
even with arbitrary options. -/
theorem C5_validate_witness :
    AlgoOverride.validate { algo := Value.none, options := [("dim", Value.int 4)] }
      = Except.ok () :=
  C5_validate.1 { algo := Value.none, options := [("dim", Value.int 4)] } rfl

/-- C6: `describe_algo` fails with a `PresetValidationError` naming the
algorithm whenever the lowercased name is not a registry key, and any
case variant of a registered name resolves to the identical `AlgoSpec`;
in particular "LoRA" and "lora" resolve identically. -/
theorem C6_describe_algo :
    (∀ name : String, dictGet ALGO_REGISTRY (pyLower name) = Option.none →
        describe_algo name
          = Except.error (PyError.presetValidationError ("Unknown algorithm " ++ name ++ "."))
          ∧ ∀ spec, describe_algo name ≠ Except.ok spec)
      ∧ (∀ (key : String) (spec : AlgoSpec), dictGet ALGO_REGISTRY key = Option.some spec →
          ∀ s : String, pyLower s = key → describe_algo s = Except.ok spec)
      ∧ describe_algo "LoRA" = describe_algo "lora" := by
  refine ⟨?_, ?_, rfl⟩
  · intro name h
    have herr : describe_algo name
        = Except.error (PyError.presetValidationError ("Unknown algorithm " ++ name ++ ".")) := by
      simp [describe_algo, h]
    exact ⟨herr, fun spec hok => Except.noConfusion (herr ▸ hok)⟩
  · intro key spec hk s hs
    simp [describe_algo, hs, hk]

/-- Witness for C6: a name absent from the registry is rejected, and the
two concrete case variants of "lora" resolve to the same spec. -/
theorem C6_describe_algo_witness :
    describe_algo "nope"
      = Except.error (PyError.presetValidationError ("Unknown algorithm " ++ "nope" ++ "."))
      ∧ ∀ spec, describe_algo "nope" ≠ Except.ok spec :=
  C6_describe_algo.1 "nope" rfl

/-- C10: `validate` resolves the algorithm name case-insensitively (the
outcome depends only on the lowercased name, which is looked up in the
registry), but matches option keys case-sensitively against
`supported_args`; concretely `{"algo": "LoKr", "dim": 4}` validates while
`{"algo": "lokr", "DIM": 4}` is rejected, since `"dim"` is a supported
argument of lokr and `"DIM"` is not. -/
theorem C10_case_sensitivity :
    (∀ (s t : String) (opts : PyDict), pyLower s = pyLower t →
        (AlgoOverride.validate { algo := Value.str s, options := opts } = Except.ok ()
          ↔ AlgoOverride.validate { algo := Value.str t, options := opts } = Except.ok ()))
      ∧ (∀ (s : String) (spec : AlgoSpec) (opts : PyDict),
          dictGet ALGO_REGISTRY (pyLower s) = Option.some spec →
          (AlgoOverride.validate { algo := Value.str s, options := opts } = Except.ok ()
            ↔ ∀ k ∈ dictKeys opts, spec.supported_args.contains k = true))
      ∧ (∀ (s k : String) (v : Value) (spec : AlgoSpec),
          dictGet ALGO_REGISTRY (pyLower s) = Option.some spec →
          spec.supported_args.contains k = false →
          ∃ msg, AlgoOverride.validate { algo := Value.str s, options := [(k, v)] }
            = Except.error (PyError.presetValidationError msg))
      ∧ AlgoOverride.validate { algo := Value.str "LoKr", options := [("dim", Value.int 4)] }
          = Except.ok ()
      ∧ (∃ msg, AlgoOverride.validate
            { algo := Value.str "lokr", options := [("DIM", Value.int 4)] }
          = Except.error (PyError.presetValidationError msg))
      ∧ (dictGet ALGO_REGISTRY "lokr").map (fun spec => spec.supported_args.contains "dim")
          = Option.some true
      ∧ (dictGet ALGO_REGISTRY "lokr").map (fun spec => spec.supported_args.contains "DIM")
          = Option.some false := by
  refine ⟨?_, ?_, ?_, rfl, ⟨_, rfl⟩, rfl, rfl⟩
  · intro s t opts hlow
    cases hreg : dictGet ALGO_REGISTRY (pyLower s) with
    | none =>
      have hregt : dictGet ALGO_REGISTRY (pyLower t) = Option.none := by
        rw [← hlow]; exact hreg
      simp [AlgoOverride.validate, hreg, hregt]
    | some spec =>
      have hregt : dictGet ALGO_REGISTRY (pyLower t) = Option.some spec := by
        rw [← hlow]; exact hreg
      rw [validate_str_ok_iff s opts spec hreg, validate_str_ok_iff t opts spec hregt]
  · intro s spec opts hreg
    exact validate_str_ok_iff s opts spec hreg
  · intro s k v spec hreg hff
    apply validate_str_error
    intro hok
    have hsup := (validate_str_ok_iff s [(k, v)] spec hreg).mp hok k
      (mem_keys_of_pair_mem _ _ _ (List.mem_cons_self _ _))
    rw [hff] at hsup
    exact Bool.noConfusion hsup

/-- Witness for C10: the two case variants "LOKR" and "lokr" validate
identically on the same options. -/
theorem C10_case_sensitivity_witness :
    AlgoOverride.validate { algo := Value.str "LOKR", options := [] } = Except.ok ()
      ↔ AlgoOverride.validate { algo := Value.str "lokr", options := [] } = Except.ok () :=
  C10_case_sensitivity.1 "LOKR" "lokr" [] rfl

/-- C7, counterexample: `read_preset` CAN raise.  A TOML file containing
`module_algo_map = 5` parses fine, but `from_dict` then raises
`AttributeError` (a truthy non-mapping has no `.items()`), which the
`except PresetValidationError` clause does not catch, so the exception
propagates out of `read_preset` instead of becoming the `None`
sentinel. -/
theorem C7_counterexample :
    PresetConfig.from_dict [("module_algo_map", Value.int 5)] false
        = Except.error PyError.attributeError
      ∧ read_preset (Except.ok [("module_algo_map", Value.int 5)])
        = Except.error PyError.attributeError
      ∧ read_preset (Except.ok [("module_algo_map", Value.int 5)]) ≠ Except.ok Option.none := by
  refine ⟨rfl, rfl, ?_⟩
  intro h
  exact Except.noConfusion h

/-- C7, amended: `read_preset` converts file/parse failures and
`PresetValidationError`s from `from_dict` into a printed diagnostic plus
the `None` sentinel, and on success returns the plain `to_dict()` mapping
rather than the typed object; however, an exception other than
`PresetValidationError` raised inside `from_dict` (e.g. `AttributeError`
for a truthy non-mapping under an algorithm-map key) propagates to the
caller. -/
theorem C7_amended :
    (∀ e : Unit, read_preset (Except.error e) = Except.ok Option.none)
      ∧ (∀ (raw : PyDict) (msg : String),
          PresetConfig.from_dict raw false
              = Except.error (PyError.presetValidationError msg) →
          read_preset (Except.ok raw) = Except.ok Option.none)
      ∧ (∀ (raw : PyDict) (p : PresetConfig),
          PresetConfig.from_dict raw false = Except.ok p →
          read_preset (Except.ok raw) = Except.ok (Option.some (PresetConfig.to_dict p)))
      ∧ (∀ (raw : PyDict) (e : PyError),
          PresetConfig.from_dict raw false = Except.error e →
          (∀ msg, e ≠ PyError.presetValidationError msg) →
          read_preset (Except.ok raw) = Except.error e) := by
  refine ⟨fun e => rfl, ?_, ?_, ?_⟩
  · intro raw msg h
    simp [read_preset, h]
  · intro raw p h
    simp [read_preset, h]
  · intro raw e h hne
    cases e with
    | presetValidationError msg => exact absurd rfl (hne msg)
    | attributeError => simp [read_preset, h]
    | typeError => simp [read_preset, h]

/-- Witness for C7_amended: a well-formed mapping loads successfully and
the caller receives its plain `to_dict` form. -/
theorem C7_amended_witness :
    read_preset (Except.ok [("enable_conv", Value.bool true)])
      = Except.ok (Option.some [("enable_conv", Value.bool true)]) := by
  have h : PresetConfig.from_dict [("enable_conv", Value.bool true)] false
      = Except.ok ({ enable_conv := Value.bool true } : PresetConfig) := rfl
  have hr := C7_amended.2.2.1 _ _ h
  exact hr

/-- C8, counterexample: `list_algorithms` uses Python truthiness
(`if override.algo:`), not an is-absent test; an override whose `algo`
is the non-absent but falsy empty string (reachable through `from_dict`)
is silently skipped, so not every non-absent `algo` field is yielded. -/
theorem C8_counterexample :
    PresetConfig.from_dict
        [("name_algo_map", Value.dict [("x", Value.dict [("algo", Value.str "")])])] false
      = Except.ok { name_algo_map := [("x", { algo := Value.str "", options := [] })] }
      ∧ ({ name_algo_map := [("x", { algo := Value.str "", options := [] })] }
          : PresetConfig).name_algo_map.map (fun q => q.2.algo) = [Value.str ""]
      ∧ Value.str "" ≠ Value.none
      ∧ PresetConfig.list_algorithms
          { name_algo_map := [("x", { algo := Value.str "", options := [] })] } = [] := by
  refine ⟨rfl, rfl, by decide, rfl⟩

/-- C8, amended: `list_algorithms` yields exactly the truthy `algo`
values (skipping `None` and falsy values such as the empty string) of
both override maps, module map first then name map, in map order and
without deduplication; as a pure function of the config it is trivially
restartable. -/
theorem C8_list_algorithms (p : PresetConfig) :
    PresetConfig.list_algorithms p
      = ((p.module_algo_map ++ p.name_algo_map).map (fun q => q.2.algo)).filter truthy := by
  unfold PresetConfig.list_algorithms
  rw [List.map_append, List.filter_append, List.filter_map, List.filter_map]
  rfl

/-- An algorithm-map key stored as `None` parses as the empty map. -/
theorem parseAlgoMap_value_none (data : PyDict) (key : String) (strict : Bool)
    (h : dictGet data key = Option.some Value.none) :
    parseAlgoMap data key strict = Except.ok [] := by
  simp [parseAlgoMap, h, truthy, parseEntries]

/-- A `None` entry inside a raw algorithm map parses to the override
with unset `algo` and empty options. -/
theorem parseEntries_entry_none (entries : PyDict) (strict : Bool)
    (m : List (String × AlgoOverride)) (h : parseEntries entries strict = Except.ok m)
    (k : String) (hk : (k, Value.none) ∈ entries) :
    (k, ({ algo := Value.none, options := [] } : AlgoOverride)) ∈ m := by
  induction entries generalizing m with
  | nil => simp at hk
  | cons e rest ih =>
    obtain ⟨k1, v1⟩ := e
    unfold parseEntries at h
    split at h
    · exact Except.noConfusion h
    · rename_i o hpo
      split at h
      · exact Except.noConfusion h
      · split at h
        · exact Except.noConfusion h
        · rename_i os hrest
          injection h with h2
          subst h2
          rcases List.mem_cons.mp hk with hk | hk
          · cases hk
            rw [show parseOverride Value.none
                = Except.ok ({ algo := Value.none, options := [] } : AlgoOverride) from rfl] at hpo
            injection hpo with h3
            rw [← h3]
            exact List.mem_cons_self _ _
          · exact List.mem_cons_of_mem _ (ih os hrest hk)

/-- A dict-valued algorithm map with a `None` entry parses with that
entry mapped to the empty override. -/
theorem parseAlgoMap_entry_none (data : PyDict) (key : String) (strict : Bool)
    (mm : List (String × AlgoOverride)) (m : PyDict) (k : String)
    (hpm : parseAlgoMap data key strict = Except.ok mm)
    (hd : dictGet data key = Option.some (Value.dict m))
    (hk : (k, Value.none) ∈ m) :
    (k, ({ algo := Value.none, options := [] } : AlgoOverride)) ∈ mm := by
  simp only [parseAlgoMap, hd, Option.getD_some] at hpm
  by_cases hm : m = []
  · subst hm
    simp at hk
  · rw [if_pos (by simp [truthy, hm])] at hpm
    exact parseEntries_entry_none m strict mm hpm k hk

/-- A raw algorithm map whose entries are all `None` parses (at either
strictness) to all-empty overrides. -/
theorem parseEntries_all_none (m : PyDict) (strict : Bool)
    (h : ∀ kv ∈ m, kv.2 = Value.none) :
    parseEntries m strict
      = Except.ok (m.map (fun kv =>
          (kv.1, ({ algo := Value.none, options := [] } : AlgoOverride)))) := by
  induction m with
  | nil => rfl
  | cons e rest ih =>
    obtain ⟨k1, v1⟩ := e
    have hv1 : v1 = Value.none := h (k1, v1) (List.mem_cons_self _ _)
    subst hv1
    unfold parseEntries
    simp only [show parseOverride Value.none
        = Except.ok ({ algo := Value.none, options := [] } : AlgoOverride) from rfl,
      show (if strict = true then
          AlgoOverride.validate { algo := Value.none, options := [] }
        else Except.ok ()) = Except.ok () from by cases strict <;> rfl,
      ih (fun kv hkv => h kv (List.mem_cons_of_mem _ hkv)), List.map_cons]

/-- An algorithm-map key that is absent, `None`, or a dict of `None`
entries always parses successfully. -/
theorem parseAlgoMap_shape_ok (data : PyDict) (key : String) (strict : Bool)
    (hshape : ∀ v, dictGet data key = Option.some v →
      v = Value.none ∨ ∃ m, v = Value.dict m ∧ ∀ kv ∈ m, kv.2 = Value.none) :
    ∃ mm, parseAlgoMap data key strict = Except.ok mm := by
  cases hd : dictGet data key with
  | none => exact ⟨[], by simp [parseAlgoMap, hd, truthy, parseEntries]⟩
  | some v =>
    rcases hshape v hd with rfl | ⟨m, rfl, hall⟩
    · exact ⟨[], parseAlgoMap_value_none data key strict hd⟩
    · by_cases hm : m = []
      · subst hm
        exact ⟨[], by simp [parseAlgoMap, hd, truthy, parseEntries]⟩
      · refine ⟨m.map (fun kv =>
            (kv.1, ({ algo := Value.none, options := [] } : AlgoOverride))), ?_⟩
        simp only [parseAlgoMap, hd, Option.getD_some]
        rw [if_pos (by simp [truthy, hm])]
        exact parseEntries_all_none m strict hall

/-- C9: `from_dict` tolerates null algorithm maps: a `None` stored under
an algorithm-map key is treated as the empty map; a `None` entry value
inside such a map becomes an override with unset `algo` and empty
options; and (at either strictness) no exception is raised for mappings
of this shape. -/
theorem C9_null_tolerance :
    (∀ (data : PyDict) (strict : Bool) (p : PresetConfig),
        PresetConfig.from_dict data strict = Except.ok p →
        (dictGet data "module_algo_map" = Option.some Value.none → p.module_algo_map = [])
          ∧ (dictGet data "name_algo_map" = Option.some Value.none → p.name_algo_map = []))
      ∧ (∀ (data : PyDict) (strict : Bool) (p : PresetConfig) (m : PyDict) (k : String),
          PresetConfig.from_dict data strict = Except.ok p →
          (dictGet data "module_algo_map" = Option.some (Value.dict m) →
              (k, Value.none) ∈ m →
              (k, ({ algo := Value.none, options := [] } : AlgoOverride))
                ∈ p.module_algo_map)
            ∧ (dictGet data "name_algo_map" = Option.some (Value.dict m) →
              (k, Value.none) ∈ m →
              (k, ({ algo := Value.none, options := [] } : AlgoOverride))
                ∈ p.name_algo_map))
      ∧ (∀ (data : PyDict) (strict : Bool),
          (∀ k ∈ dictKeys data, k ∈ VALID_PRESET_KEYS) →
          (∀ key ∈ ["module_algo_map", "name_algo_map"], ∀ v,
            dictGet data key = Option.some v →
            v = Value.none ∨ ∃ m, v = Value.dict m ∧ ∀ kv ∈ m, kv.2 = Value.none) →
          ∃ p, PresetConfig.from_dict data strict = Except.ok p) := by
  refine ⟨?_, ?_, ?_⟩
  · intro data strict p hp
    obtain ⟨_, hmm, hnm, _⟩ := from_dict_ok_inv data strict p hp
    constructor
    · intro hnone
      rw [parseAlgoMap_value_none data "module_algo_map" strict hnone] at hmm
      injection hmm with h2
      exact h2.symm
    · intro hnone
      rw [parseAlgoMap_value_none data "name_algo_map" strict hnone] at hnm
      injection hnm with h2
      exact h2.symm
  · intro data strict p m k hp
    obtain ⟨_, hmm, hnm, _⟩ := from_dict_ok_inv data strict p hp
    constructor
    · intro hd hk
      exact parseAlgoMap_entry_none data "module_algo_map" strict _ m k hmm hd hk
    · intro hd hk
      exact parseAlgoMap_entry_none data "name_algo_map" strict _ m k hnm hd hk
  · intro data strict hkeys hshape
    have hfil : (dictKeys data).filter (fun k => !(VALID_PRESET_KEYS.contains k)) = [] := by
      apply List.filter_eq_nil_iff.mpr
      intro k hk
      have hc : VALID_PRESET_KEYS.contains k = true := by
        rw [List.elem_iff]
        exact hkeys k hk
      rw [hc]
      decide
    obtain ⟨mm, hmm⟩ := parseAlgoMap_shape_ok data "module_algo_map" strict
      (hshape "module_algo_map" (by simp))
    obtain ⟨nn, hnn⟩ := parseAlgoMap_shape_ok data "name_algo_map" strict
      (hshape "name_algo_map" (by simp))
    refine ⟨{ enable_conv := getField data "enable_conv"
              target_module := getField data "target_module"
              target_name := getField data "target_name"
              module_algo_map := mm
              name_algo_map := nn
              lora_prefix := getField data "lora_prefix"
              use_fnmatch := getField data "use_fnmatch"
              unet_target_module := getField data "unet_target_module"
              unet_target_name := getField data "unet_target_name"
              text_encoder_target_module := getField data "text_encoder_target_module"
              text_encoder_target_name := getField data "text_encoder_target_name"
              exclude_name := getField data "exclude_name"
              extra := [] }, ?_⟩
    simp only [PresetConfig.from_dict, hmm, hnn]
    rw [if_neg (not_ne_iff.mpr hfil)]

/-- Witness for C9: a mapping with a `None` module map and a name map
holding a `None` entry parses, in strict mode, to the empty module map
and a name map with the all-defaults override. -/
theorem C9_null_tolerance_witness :
    ∃ p, PresetConfig.from_dict
        [("module_algo_map", Value.none),
         ("name_algo_map", Value.dict [("x", Value.none)])] true
      = Except.ok p := by
  apply C9_null_tolerance.2.2
  · intro k hk
    fin_cases hk
    · decide
    · decide
  · intro key hkey v hv
    fin_cases hkey
    · rw [show dictGet
          [("module_algo_map", Value.none), ("name_algo_map", Value.dict [("x", Value.none)])]
          "module_algo_map" = Option.some Value.none from rfl] at hv
      injection hv with hv2
      exact Or.inl hv2.symm
    · rw [show dictGet
          [("module_algo_map", Value.none), ("name_algo_map", Value.dict [("x", Value.none)])]
          "name_algo_map" = Option.some (Value.dict [("x", Value.none)]) from rfl] at hv
      injection hv with hv2
      refine Or.inr ⟨[("x", Value.none)], hv2.symm, ?_⟩
      intro kv hkv
      fin_cases hkv
      rfl
